import Mathlib

/-!
Verification of the loan-calculator core of the Housing-Loan-Analysis-Tool
repository (src/main.py), shallowly embedded over exact rationals.
The amortization engine (calculate_loan_schedule), the prepayment comparator
(calculate_prepayment_impact) and the script-level derived metrics
(break-even, ROI, recommendation) are translated below; pandas DataFrame
column access, which raises KeyError on the empty frame produced by an empty
schedule list, is modelled by Option.
-/

/-- One row of the amortization schedule, as appended at src/main.py lines
103-110: Month, Payment, Principal, Interest, Balance, Total Interest. -/
structure ScheduleEntry where
  month : ℕ
  payment : ℚ
  principal : ℚ
  interest : ℚ
  balance : ℚ
  totalInterest : ℚ
deriving DecidableEq

/-- Result of calculate_loan_schedule: the schedule rows, together with the
insufficient-payment report issued via st.error at line 97 (carrying the
interest amount shown there as the minimum payment needed), if the loop was
broken at line 98. -/
structure LoanResult where
  schedule : List ScheduleEntry
  insufficientMsg : Option ℚ
deriving DecidableEq

/-- interest_payment = balance * monthly_rate (src/main.py line 93). -/
def interestOf (monthly_rate balance : ℚ) : ℚ := balance * monthly_rate

/-- principal_payment = min(monthly_payment - interest_payment, balance)
(src/main.py line 94). -/
def principalOf (monthly_rate monthly_payment balance : ℚ) : ℚ :=
  min (monthly_payment - interestOf monthly_rate balance) balance

/-- balance -= principal_payment (src/main.py line 100). -/
def nextBalance (monthly_rate monthly_payment balance : ℚ) : ℚ :=
  balance - principalOf monthly_rate monthly_payment balance

/-- The dict appended at src/main.py lines 103-110, for the month whose
starting balance is the given balance. The Payment field is monthly_payment
when the updated balance is still positive and the trimmed final payment
otherwise (line 105). -/
def mkEntry (monthly_rate monthly_payment balance total_interest : ℚ) (month : ℕ) :
    ScheduleEntry :=
  ⟨month,
   if 0 < nextBalance monthly_rate monthly_payment balance then monthly_payment
   else principalOf monthly_rate monthly_payment balance + interestOf monthly_rate balance,
   principalOf monthly_rate monthly_payment balance,
   interestOf monthly_rate balance,
   nextBalance monthly_rate monthly_payment balance,
   total_interest + interestOf monthly_rate balance⟩

/-- The while loop of calculate_loan_schedule (src/main.py lines 91-113).
The fuel argument counts the remaining iterations allowed by the loop bound
month < max_months; balance, total_interest and month are the loop state. -/
def scheduleGo (monthly_rate monthly_payment : ℚ) :
    ℕ → ℚ → ℚ → ℕ → LoanResult
  | 0, _, _, _ => ⟨[], none⟩
  | fuel + 1, balance, total_interest, month =>
    if 0 < balance then
      if principalOf monthly_rate monthly_payment balance ≤ 0 then
        ⟨[], some (interestOf monthly_rate balance)⟩
      else if nextBalance monthly_rate monthly_payment balance ≤ 0 then
        ⟨[mkEntry monthly_rate monthly_payment balance total_interest (month + 1)], none⟩
      else
        ⟨mkEntry monthly_rate monthly_payment balance total_interest (month + 1) ::
            (scheduleGo monthly_rate monthly_payment fuel
              (nextBalance monthly_rate monthly_payment balance)
              (total_interest + interestOf monthly_rate balance) (month + 1)).schedule,
          (scheduleGo monthly_rate monthly_payment fuel
              (nextBalance monthly_rate monthly_payment balance)
              (total_interest + interestOf monthly_rate balance) (month + 1)).insufficientMsg⟩
    else ⟨[], none⟩

/-- calculate_loan_schedule (src/main.py lines 83-115): monthly_rate is
annual_rate / 100 / 12, the loop starts at balance = principal,
total_interest = 0, month = 0. -/
def calculate_loan_schedule (principal annual_rate monthly_payment : ℚ)
    (max_months : ℕ) : LoanResult :=
  scheduleGo (annual_rate / 100 / 12) monthly_payment max_months principal 0 0

/-- Sum of the Interest column of a schedule. -/
def interestSum (s : List ScheduleEntry) : ℚ := (s.map fun e => e.interest).sum

/-- Sum of the Principal column of a schedule. -/
def principalSum (s : List ScheduleEntry) : ℚ := (s.map fun e => e.principal).sum

/-- The balance after the last emitted month; the starting balance (default)
when no month was emitted. -/
def finalBalance (dflt : ℚ) (s : List ScheduleEntry) : ℚ :=
  (s.getLast?).elim dflt fun e => e.balance

/-- Models df[col].sum() on pd.DataFrame(schedule): pd.DataFrame([]) has no
columns, so selecting a column of the empty frame raises KeyError (none);
on a nonempty frame the column sum is returned. -/
def columnSum (f : ScheduleEntry → ℚ) : List ScheduleEntry → Option ℚ
  | [] => none
  | e :: rest => some (((e :: rest).map f).sum)

/-- The dict returned by calculate_prepayment_impact (src/main.py
lines 132-139). -/
structure PrepaymentImpact where
  origTotalInterest : ℚ
  newTotalInterest : ℚ
  interestSavings : ℚ
  monthsSaved : ℤ
  origSchedule : List ScheduleEntry
  newSchedule : List ScheduleEntry
deriving DecidableEq

/-- calculate_prepayment_impact (src/main.py lines 117-139). The Interest
column sums at lines 127-128 raise KeyError when the corresponding schedule
is empty, which aborts the call (none). -/
def calculate_prepayment_impact (principal annual_rate monthly_payment
    prepay_amount : ℚ) (max_months : ℕ) : Option PrepaymentImpact :=
  match columnSum (fun e => e.interest)
          (calculate_loan_schedule principal annual_rate monthly_payment max_months).schedule,
        columnSum (fun e => e.interest)
          (calculate_loan_schedule (principal - prepay_amount) annual_rate monthly_payment
            max_months).schedule with
  | some origTI, some newTI =>
    some ⟨origTI, newTI, origTI - newTI,
      ((calculate_loan_schedule principal annual_rate monthly_payment
          max_months).schedule.length : ℤ) -
        ((calculate_loan_schedule (principal - prepay_amount) annual_rate monthly_payment
          max_months).schedule.length : ℤ),
      (calculate_loan_schedule principal annual_rate monthly_payment max_months).schedule,
      (calculate_loan_schedule (principal - prepay_amount) annual_rate monthly_payment
        max_months).schedule⟩
  | _, _ => none

/-- monthly_interest_diff (src/main.py lines 246-248): first-month interest
differential between the current and the new rate. -/
def monthly_interest_diff (principal current_rate new_rate : ℚ) : ℚ :=
  principal * (current_rate / 100 / 12) - principal * (new_rate / 100 / 12)

/-- Round-half-to-even, the semantics of the Python builtin round used at
src/main.py line 254. -/
def pythonRound (q : ℚ) : ℤ :=
  if q - ⌊q⌋ < 1 / 2 then ⌊q⌋
  else if 1 / 2 < q - ⌊q⌋ then ⌊q⌋ + 1
  else if ⌊q⌋ % 2 = 0 then ⌊q⌋ else ⌊q⌋ + 1

/-- The break-even computation (src/main.py lines 253-263): the division
round(rewriting_fee / monthly_interest_diff) is performed only under the
guard monthly_interest_diff > 0; otherwise the script reports that the rate
change saves no money (none). -/
def breakeven_months (rewriting_fee diff : ℚ) : Option ℤ :=
  if 0 < diff then some (pythonRound (rewriting_fee / diff)) else none

/-- roi = (interest savings / prepayment_amount) * 100 (src/main.py
line 334). -/
def roiValue (interest_savings prepayment_amount : ℚ) : ℚ :=
  interest_savings / prepayment_amount * 100

/-- What tab3 reports for ROI: src/main.py line 334 computes roiValue
unconditionally, with no guard on prepayment_amount, so a value is always
produced (some); none would model a not-applicable report, which the script
never issues. -/
def roi_reported (interest_savings prepayment_amount : ℚ) : Option ℚ :=
  some (roiValue interest_savings prepayment_amount)

/-- The four outcomes of the recommendation block (src/main.py
lines 373-396). -/
inductive Recommendation where
  | makePrepayment
  | lowerRate
  | smallerPrepayment
  | noAction
deriving DecidableEq

/-- The recommendation if/elif chain (src/main.py lines 373-396), as a
function of prepayment interest savings, rate-change net savings,
prepayment amount and current principal. -/
def recommendation (prepay_savings net_savings prepayment_amount
    current_principal : ℚ) : Recommendation :=
  if net_savings < prepay_savings ∧ 0 < prepay_savings then
    Recommendation.makePrepayment
  else if 0 < net_savings ∧ prepay_savings < net_savings then
    Recommendation.lowerRate
  else if current_principal * (25 / 100) < prepayment_amount then
    Recommendation.smallerPrepayment
  else
    Recommendation.noAction

/-- The sidebar inputs of the script (src/main.py lines 61-80). -/
structure AppInputs where
  current_principal : ℚ
  current_rate : ℚ
  monthly_payment : ℚ
  remaining_months : ℕ
  new_rate : ℚ
  rewriting_fee : ℚ
  prepayment_amount : ℚ
  prepayment_fee_percent : ℚ

/-- Everything the script computes from the inputs. -/
structure AppOutputs where
  current_schedule : LoanResult
  new_rate_schedule : LoanResult
  interest_savings : ℚ
  net_savings : ℚ
  monthly_diff : ℚ
  breakeven : Option ℤ
  impact : PrepaymentImpact
  roi : Option ℚ
  advice : Recommendation
deriving DecidableEq

/-- The whole computational pipeline of the script: the two schedules at
lines 142-143 (hard-coded horizon 360), the tab2 savings metrics and
break-even, the tab3 prepayment impact (called with horizon 360 at
lines 311-317), ROI and the recommendation. A KeyError from a column sum on
an empty schedule aborts the script run (none). -/
def appCompute (i : AppInputs) : Option AppOutputs :=
  match columnSum (fun e => e.interest)
          (calculate_loan_schedule i.current_principal i.current_rate i.monthly_payment
            360).schedule,
        columnSum (fun e => e.interest)
          (calculate_loan_schedule i.current_principal i.new_rate i.monthly_payment
            360).schedule with
  | some curTI, some newTI =>
    match calculate_prepayment_impact i.current_principal i.current_rate i.monthly_payment
            (i.prepayment_amount - i.prepayment_amount * i.prepayment_fee_percent / 100)
            360 with
    | some impact =>
      some ⟨calculate_loan_schedule i.current_principal i.current_rate i.monthly_payment 360,
            calculate_loan_schedule i.current_principal i.new_rate i.monthly_payment 360,
            curTI - newTI,
            curTI - newTI - i.rewriting_fee,
            monthly_interest_diff i.current_principal i.current_rate i.new_rate,
            breakeven_months i.rewriting_fee
              (monthly_interest_diff i.current_principal i.current_rate i.new_rate),
            impact,
            roi_reported impact.interestSavings i.prepayment_amount,
            recommendation impact.interestSavings (curTI - newTI - i.rewriting_fee)
              i.prepayment_amount i.current_principal⟩
    | none => none
  | _, _ => none

/-- The month-to-month bookkeeping that the spec ascribes to the engine,
stated with the formulas of the spec: starting from balance b, each entry
records interest b * monthly_rate, principal min(monthly_payment - interest,
b), and the balance decreased by exactly the principal portion, the next
entry continuing from the decreased balance. -/
def chainFrom (monthly_rate monthly_payment : ℚ) : ℚ → List ScheduleEntry → Prop
  | _, [] => True
  | b, e :: rest =>
      e.interest = b * monthly_rate ∧
      e.principal = min (monthly_payment - e.interest) b ∧
      e.balance = b - e.principal ∧
      chainFrom monthly_rate monthly_payment e.balance rest

section LoopLemmas

/-- The loop makes no iteration once the fuel (the bound month < max_months)
is spent. -/
lemma scheduleGo_zero (monthly_rate monthly_payment balance total_interest : ℚ)
    (month : ℕ) :
    scheduleGo monthly_rate monthly_payment 0 balance total_interest month =
      ⟨[], none⟩ := rfl

/-- The loop does not run when the balance is not positive. -/
lemma scheduleGo_done (monthly_rate monthly_payment balance total_interest : ℚ)
    (fuel month : ℕ) (hb : ¬ 0 < balance) :
    scheduleGo monthly_rate monthly_payment (fuel + 1) balance total_interest month =
      ⟨[], none⟩ := by
  rw [scheduleGo, if_neg hb]

/-- The break at src/main.py lines 96-98: a nonpositive principal portion
halts the loop with no entry and the insufficient-payment report carrying
this month's interest. -/
lemma scheduleGo_stall (monthly_rate monthly_payment balance total_interest : ℚ)
    (fuel month : ℕ) (hb : 0 < balance)
    (hpp : principalOf monthly_rate monthly_payment balance ≤ 0) :
    scheduleGo monthly_rate monthly_payment (fuel + 1) balance total_interest month =
      ⟨[], some (interestOf monthly_rate balance)⟩ := by
  rw [scheduleGo, if_pos hb, if_pos hpp]

/-- The final iteration: the decreased balance is nonpositive, a single entry
is emitted and the loop stops (src/main.py lines 112-113). -/
lemma scheduleGo_last (monthly_rate monthly_payment balance total_interest : ℚ)
    (fuel month : ℕ) (hb : 0 < balance)
    (hpp : ¬ principalOf monthly_rate monthly_payment balance ≤ 0)
    (hb2 : nextBalance monthly_rate monthly_payment balance ≤ 0) :
    scheduleGo monthly_rate monthly_payment (fuel + 1) balance total_interest month =
      ⟨[mkEntry monthly_rate monthly_payment balance total_interest (month + 1)], none⟩ := by
  rw [scheduleGo, if_pos hb, if_neg hpp, if_pos hb2]

/-- A regular iteration: an entry is emitted and the loop continues from the
decreased balance. -/
lemma scheduleGo_cons (monthly_rate monthly_payment balance total_interest : ℚ)
    (fuel month : ℕ) (hb : 0 < balance)
    (hpp : ¬ principalOf monthly_rate monthly_payment balance ≤ 0)
    (hb2 : ¬ nextBalance monthly_rate monthly_payment balance ≤ 0) :
    scheduleGo monthly_rate monthly_payment (fuel + 1) balance total_interest month =
      ⟨mkEntry monthly_rate monthly_payment balance total_interest (month + 1) ::
          (scheduleGo monthly_rate monthly_payment fuel
            (nextBalance monthly_rate monthly_payment balance)
            (total_interest + interestOf monthly_rate balance) (month + 1)).schedule,
        (scheduleGo monthly_rate monthly_payment fuel
            (nextBalance monthly_rate monthly_payment balance)
            (total_interest + interestOf monthly_rate balance) (month + 1)).insufficientMsg⟩ := by
  rw [scheduleGo, if_pos hb, if_neg hpp, if_neg hb2]

end LoopLemmas

section StepLemmas

@[simp] lemma LoanResult_schedule_mk (l : List ScheduleEntry) (o : Option ℚ) :
    (LoanResult.mk l o).schedule = l := rfl

@[simp] lemma LoanResult_msg_mk (l : List ScheduleEntry) (o : Option ℚ) :
    (LoanResult.mk l o).insufficientMsg = o := rfl

@[simp] lemma mkEntry_month (mr mp b ti : ℚ) (m : ℕ) : (mkEntry mr mp b ti m).month = m := rfl

@[simp] lemma mkEntry_payment (mr mp b ti : ℚ) (m : ℕ) :
    (mkEntry mr mp b ti m).payment =
      if 0 < nextBalance mr mp b then mp else principalOf mr mp b + interestOf mr b := rfl

@[simp] lemma mkEntry_principal (mr mp b ti : ℚ) (m : ℕ) :
    (mkEntry mr mp b ti m).principal = principalOf mr mp b := rfl

@[simp] lemma mkEntry_interest (mr mp b ti : ℚ) (m : ℕ) :
    (mkEntry mr mp b ti m).interest = interestOf mr b := rfl

@[simp] lemma mkEntry_balance (mr mp b ti : ℚ) (m : ℕ) :
    (mkEntry mr mp b ti m).balance = nextBalance mr mp b := rfl

@[simp] lemma mkEntry_totalInterest (mr mp b ti : ℚ) (m : ℕ) :
    (mkEntry mr mp b ti m).totalInterest = ti + interestOf mr b := rfl

/-- The principal portion is positive whenever the balance is positive and
the payment exceeds this month's interest. -/
lemma principalOf_pos (mr mp b : ℚ) (hb : 0 < b) (hint : b * mr < mp) :
    0 < principalOf mr mp b := by
  unfold principalOf interestOf
  exact lt_min (by linarith) hb

/-- The principal portion never exceeds the balance. -/
lemma principalOf_le (mr mp b : ℚ) : principalOf mr mp b ≤ b := min_le_right _ _

/-- The decreased balance is never negative. -/
lemma nextBalance_nonneg (mr mp b : ℚ) : 0 ≤ nextBalance mr mp b := by
  have := principalOf_le mr mp b
  unfold nextBalance; linarith

/-- The balance strictly decreases at a regular iteration. -/
lemma nextBalance_lt (mr mp b : ℚ) (hpp : 0 < principalOf mr mp b) :
    nextBalance mr mp b < b := by
  unfold nextBalance; linarith

/-- Closed form of the balance update: one month of interest accrues and the
payment is taken, floored at zero. -/
lemma nextBalance_eq_max (mr mp b : ℚ) :
    nextBalance mr mp b = max (b * (1 + mr) - mp) 0 := by
  have h := max_sub_sub_left b (mp - interestOf mr b) b
  unfold nextBalance principalOf
  rw [← h, sub_self]
  have : b - (mp - interestOf mr b) = b * (1 + mr) - mp := by
    unfold interestOf; ring
  rw [this]

/-- The balance update is monotone in the balance for nonnegative rates. -/
lemma nextBalance_mono (mr mp b c : ℚ) (hmr : 0 ≤ mr) (hbc : b ≤ c) :
    nextBalance mr mp b ≤ nextBalance mr mp c := by
  rw [nextBalance_eq_max, nextBalance_eq_max]
  have h1 : b * (1 + mr) ≤ c * (1 + mr) :=
    mul_le_mul_of_nonneg_right hbc (by linarith)
  exact max_le_max (by linarith) le_rfl

end StepLemmas

section LoopInduction

/-- The loop runs at most fuel iterations. -/
lemma go_len_le (mr mp : ℚ) :
    ∀ fuel b ti m, (scheduleGo mr mp fuel b ti m).schedule.length ≤ fuel := by
  intro fuel
  induction fuel with
  | zero => intro b ti m; simp [scheduleGo_zero]
  | succ n ih =>
    intro b ti m
    by_cases hb : 0 < b
    · by_cases hpp : principalOf mr mp b ≤ 0
      · simp [scheduleGo_stall _ _ _ _ _ _ hb hpp]
      · by_cases hb2 : nextBalance mr mp b ≤ 0
        · simp [scheduleGo_last _ _ _ _ _ _ hb hpp hb2]
        · rw [scheduleGo_cons _ _ _ _ _ _ hb hpp hb2]
          simpa using ih _ _ _
    · simp [scheduleGo_done _ _ _ _ _ _ hb]

/-- Every emitted balance lies between 0 and the starting balance. -/
lemma go_balance_bounds (mr mp : ℚ) :
    ∀ fuel b ti m, ∀ e ∈ (scheduleGo mr mp fuel b ti m).schedule,
      0 ≤ e.balance ∧ e.balance ≤ b := by
  intro fuel
  induction fuel with
  | zero => intro b ti m; simp [scheduleGo_zero]
  | succ n ih =>
    intro b ti m
    by_cases hb : 0 < b
    · by_cases hpp : principalOf mr mp b ≤ 0
      · simp [scheduleGo_stall _ _ _ _ _ _ hb hpp]
      · have hppos : 0 < principalOf mr mp b := lt_of_not_le hpp
        have hle : nextBalance mr mp b ≤ b := le_of_lt (nextBalance_lt mr mp b hppos)
        by_cases hb2 : nextBalance mr mp b ≤ 0
        · rw [scheduleGo_last _ _ _ _ _ _ hb hpp hb2]
          intro e he
          simp only [LoanResult_schedule_mk, List.mem_singleton] at he
          subst he
          exact ⟨by simpa using nextBalance_nonneg mr mp b, by simpa using hle⟩
        · rw [scheduleGo_cons _ _ _ _ _ _ hb hpp hb2]
          intro e he
          simp only [LoanResult_schedule_mk, List.mem_cons] at he
          rcases he with rfl | he
          · exact ⟨by simpa using nextBalance_nonneg mr mp b, by simpa using hle⟩
          · rcases ih _ _ _ e he with ⟨h1, h2⟩
            exact ⟨h1, le_trans h2 hle⟩
    · simp [scheduleGo_done _ _ _ _ _ _ hb]

/-- Cumulative interest never falls below the accumulator it starts from,
for a nonnegative rate and balance. -/
lemma go_ti_lower (mr mp : ℚ) (hmr : 0 ≤ mr) :
    ∀ fuel b ti m, 0 ≤ b → ∀ e ∈ (scheduleGo mr mp fuel b ti m).schedule,
      ti ≤ e.totalInterest := by
  intro fuel
  induction fuel with
  | zero => intro b ti m _; simp [scheduleGo_zero]
  | succ n ih =>
    intro b ti m hb0
    by_cases hb : 0 < b
    · have hip : 0 ≤ interestOf mr b := mul_nonneg hb0 hmr
      by_cases hpp : principalOf mr mp b ≤ 0
      · simp [scheduleGo_stall _ _ _ _ _ _ hb hpp]
      · by_cases hb2 : nextBalance mr mp b ≤ 0
        · rw [scheduleGo_last _ _ _ _ _ _ hb hpp hb2]
          intro e he
          simp only [LoanResult_schedule_mk, List.mem_singleton] at he
          subst he
          simpa using hip
        · rw [scheduleGo_cons _ _ _ _ _ _ hb hpp hb2]
          intro e he
          simp only [LoanResult_schedule_mk, List.mem_cons] at he
          rcases he with rfl | he
          · simpa using hip
          · have := ih (nextBalance mr mp b) (ti + interestOf mr b) (m + 1)
              (nextBalance_nonneg mr mp b) e he
            linarith
    · simp [scheduleGo_done _ _ _ _ _ _ hb]

/-- The emitted balance column is non-increasing, pairwise. -/
lemma go_balance_pairwise (mr mp : ℚ) :
    ∀ fuel b ti m, ((scheduleGo mr mp fuel b ti m).schedule).Pairwise
      (fun a c => c.balance ≤ a.balance) := by
  intro fuel
  induction fuel with
  | zero => intro b ti m; simp [scheduleGo_zero]
  | succ n ih =>
    intro b ti m
    by_cases hb : 0 < b
    · by_cases hpp : principalOf mr mp b ≤ 0
      · simp [scheduleGo_stall _ _ _ _ _ _ hb hpp]
      · by_cases hb2 : nextBalance mr mp b ≤ 0
        · simp [scheduleGo_last _ _ _ _ _ _ hb hpp hb2]
        · rw [scheduleGo_cons _ _ _ _ _ _ hb hpp hb2]
          simp only [LoanResult_schedule_mk, List.pairwise_cons]
          refine ⟨fun e he => ?_, ih _ _ _⟩
          simpa using (go_balance_bounds mr mp n _ _ _ e he).2
    · simp [scheduleGo_done _ _ _ _ _ _ hb]

/-- The emitted cumulative-interest column is non-decreasing, pairwise,
for a nonnegative rate. -/
lemma go_ti_pairwise (mr mp : ℚ) (hmr : 0 ≤ mr) :
    ∀ fuel b ti m, ((scheduleGo mr mp fuel b ti m).schedule).Pairwise
      (fun a c => a.totalInterest ≤ c.totalInterest) := by
  intro fuel
  induction fuel with
  | zero => intro b ti m; simp [scheduleGo_zero]
  | succ n ih =>
    intro b ti m
    by_cases hb : 0 < b
    · by_cases hpp : principalOf mr mp b ≤ 0
      · simp [scheduleGo_stall _ _ _ _ _ _ hb hpp]
      · by_cases hb2 : nextBalance mr mp b ≤ 0
        · simp [scheduleGo_last _ _ _ _ _ _ hb hpp hb2]
        · rw [scheduleGo_cons _ _ _ _ _ _ hb hpp hb2]
          simp only [LoanResult_schedule_mk, List.pairwise_cons]
          refine ⟨fun e he => ?_, ih _ _ _⟩
          have := go_ti_lower mr mp hmr n (nextBalance mr mp b)
            (ti + interestOf mr b) (m + 1) (nextBalance_nonneg mr mp b) e he
          simpa using this
    · simp [scheduleGo_done _ _ _ _ _ _ hb]

/-- The emitted rows satisfy the month-to-month bookkeeping of the spec,
starting from the loop's entry balance. -/
lemma go_chain (mr mp : ℚ) :
    ∀ fuel b ti m, chainFrom mr mp b (scheduleGo mr mp fuel b ti m).schedule := by
  intro fuel
  induction fuel with
  | zero => intro b ti m; simp [scheduleGo_zero, chainFrom]
  | succ n ih =>
    intro b ti m
    by_cases hb : 0 < b
    · by_cases hpp : principalOf mr mp b ≤ 0
      · simp [scheduleGo_stall _ _ _ _ _ _ hb hpp, chainFrom]
      · by_cases hb2 : nextBalance mr mp b ≤ 0
        · rw [scheduleGo_last _ _ _ _ _ _ hb hpp hb2]
          simp [chainFrom, interestOf, principalOf, nextBalance]
        · rw [scheduleGo_cons _ _ _ _ _ _ hb hpp hb2]
          simp only [LoanResult_schedule_mk, chainFrom, mkEntry_interest,
            mkEntry_principal, mkEntry_balance]
          refine ⟨rfl, by simp [principalOf, interestOf], rfl, ih _ _ _⟩
    · simp [scheduleGo_done _ _ _ _ _ _ hb, chainFrom]

/-- Every emitted Payment field is the fixed monthly payment while the row's
balance is still positive, and the trimmed sum otherwise. -/
lemma go_payment (mr mp : ℚ) :
    ∀ fuel b ti m, ∀ e ∈ (scheduleGo mr mp fuel b ti m).schedule,
      e.payment = if 0 < e.balance then mp else e.principal + e.interest := by
  intro fuel
  induction fuel with
  | zero => intro b ti m; simp [scheduleGo_zero]
  | succ n ih =>
    intro b ti m
    by_cases hb : 0 < b
    · by_cases hpp : principalOf mr mp b ≤ 0
      · simp [scheduleGo_stall _ _ _ _ _ _ hb hpp]
      · by_cases hb2 : nextBalance mr mp b ≤ 0
        · rw [scheduleGo_last _ _ _ _ _ _ hb hpp hb2]
          intro e he
          simp only [LoanResult_schedule_mk, List.mem_singleton] at he
          subst he
          simp
        · rw [scheduleGo_cons _ _ _ _ _ _ hb hpp hb2]
          intro e he
          simp only [LoanResult_schedule_mk, List.mem_cons] at he
          rcases he with rfl | he
          · simp
          · exact ih _ _ _ e he
    · simp [scheduleGo_done _ _ _ _ _ _ hb]

@[simp] lemma interestSum_nil : interestSum [] = 0 := rfl

@[simp] lemma interestSum_cons (e : ScheduleEntry) (l : List ScheduleEntry) :
    interestSum (e :: l) = e.interest + interestSum l := by
  simp [interestSum]

@[simp] lemma principalSum_nil : principalSum [] = 0 := rfl

@[simp] lemma principalSum_cons (e : ScheduleEntry) (l : List ScheduleEntry) :
    principalSum (e :: l) = e.principal + principalSum l := by
  simp [principalSum]

@[simp] lemma finalBalance_nil (d : ℚ) : finalBalance d [] = d := rfl

lemma finalBalance_cons (d : ℚ) (e : ScheduleEntry) (l : List ScheduleEntry) :
    finalBalance d (e :: l) = finalBalance e.balance l := by
  cases l with
  | nil => simp [finalBalance]
  | cons x xs =>
    unfold finalBalance
    rw [List.getLast?_cons_cons]
    cases h : (x :: xs).getLast? with
    | none => simp at h
    | some a => simp

/-- Column access on the DataFrame of a nonempty schedule succeeds. -/
lemma columnSum_isSome (f : ScheduleEntry → ℚ) (l : List ScheduleEntry)
    (h : l ≠ []) : ∃ q, columnSum f l = some q := by
  cases l with
  | nil => exact absurd rfl h
  | cons e rest => exact ⟨_, rfl⟩

/-- Telescoping the balance updates: the emitted principal portions sum to the
starting balance minus the last emitted balance. -/
lemma go_principal_sum (mr mp : ℚ) :
    ∀ fuel b ti m, principalSum (scheduleGo mr mp fuel b ti m).schedule =
      b - finalBalance b (scheduleGo mr mp fuel b ti m).schedule := by
  intro fuel
  induction fuel with
  | zero => intro b ti m; simp [scheduleGo_zero]
  | succ n ih =>
    intro b ti m
    by_cases hb : 0 < b
    · by_cases hpp : principalOf mr mp b ≤ 0
      · simp [scheduleGo_stall _ _ _ _ _ _ hb hpp]
      · by_cases hb2 : nextBalance mr mp b ≤ 0
        · rw [scheduleGo_last _ _ _ _ _ _ hb hpp hb2]
          simp [finalBalance, nextBalance]
        · rw [scheduleGo_cons _ _ _ _ _ _ hb hpp hb2]
          simp only [LoanResult_schedule_mk, principalSum_cons, mkEntry_principal]
          rw [finalBalance_cons, mkEntry_balance]
          have hrec := ih (nextBalance mr mp b) (ti + interestOf mr b) (m + 1)
          have hnb : nextBalance mr mp b = b - principalOf mr mp b := rfl
          rw [hrec, hnb]
          ring
    · simp [scheduleGo_done _ _ _ _ _ _ hb]

/-- All non-final emitted rows carry the full monthly payment, split exactly
into principal plus interest. -/
lemma go_nonfinal (mr mp : ℚ) :
    ∀ fuel b ti m, ∀ e ∈ ((scheduleGo mr mp fuel b ti m).schedule).dropLast,
      e.payment = mp ∧ e.principal + e.interest = mp := by
  intro fuel
  induction fuel with
  | zero => intro b ti m; simp [scheduleGo_zero]
  | succ n ih =>
    intro b ti m
    by_cases hb : 0 < b
    · by_cases hpp : principalOf mr mp b ≤ 0
      · simp [scheduleGo_stall _ _ _ _ _ _ hb hpp]
      · by_cases hb2 : nextBalance mr mp b ≤ 0
        · simp [scheduleGo_last _ _ _ _ _ _ hb hpp hb2]
        · rw [scheduleGo_cons _ _ _ _ _ _ hb hpp hb2]
          intro e he
          simp only [LoanResult_schedule_mk] at he
          rcases hrest : (scheduleGo mr mp n (nextBalance mr mp b)
              (ti + interestOf mr b) (m + 1)).schedule with _ | ⟨r0, rtail⟩
          · rw [hrest] at he; simp at he
          · rw [hrest] at he
            rw [List.dropLast_cons₂] at he
            rcases List.mem_cons.mp he with rfl | he
            · constructor
              · simp [lt_of_not_le hb2]
              · simp only [mkEntry_principal, mkEntry_interest]
                have hmin : principalOf mr mp b = mp - interestOf mr b := by
                  rcases le_total (mp - interestOf mr b) b with hle | hle
                  · exact min_eq_left hle
                  · exfalso
                    have : nextBalance mr mp b = 0 := by
                      unfold nextBalance principalOf
                      rw [min_eq_right hle]; ring
                    exact hb2 (le_of_eq this)
                rw [hmin]; ring
            · have := ih (nextBalance mr mp b) (ti + interestOf mr b) (m + 1) e
              rw [hrest] at this
              exact this he
    · simp [scheduleGo_done _ _ _ _ _ _ hb]

/-- When the payment stays ahead of the accruing interest, the loop never
stalls: no insufficient-payment report, at least one row per unit of fuel
until payoff, and the run ends at balance exactly 0 unless the fuel ran out. -/
lemma go_success (mr mp : ℚ) (hmr : 0 ≤ mr) :
    ∀ fuel b ti m, 0 < b → b * mr < mp →
      (scheduleGo mr mp fuel b ti m).insufficientMsg = none ∧
      ((scheduleGo mr mp fuel b ti m).schedule = [] → fuel = 0) ∧
      (finalBalance b (scheduleGo mr mp fuel b ti m).schedule = 0 ∨
        (scheduleGo mr mp fuel b ti m).schedule.length = fuel) := by
  intro fuel
  induction fuel with
  | zero => intro b ti m _ _; simp [scheduleGo_zero]
  | succ n ih =>
    intro b ti m hb hint
    have hpp : ¬ principalOf mr mp b ≤ 0 := not_le.mpr (principalOf_pos mr mp b hb hint)
    by_cases hb2 : nextBalance mr mp b ≤ 0
    · rw [scheduleGo_last _ _ _ _ _ _ hb hpp hb2]
      refine ⟨rfl, by simp, Or.inl ?_⟩
      have h0 : nextBalance mr mp b = 0 :=
        le_antisymm hb2 (nextBalance_nonneg mr mp b)
      simp [finalBalance, h0]
    · rw [scheduleGo_cons _ _ _ _ _ _ hb hpp hb2]
      have hnbpos : 0 < nextBalance mr mp b := lt_of_not_le hb2
      have hnblt : nextBalance mr mp b < b :=
        nextBalance_lt mr mp b (lt_of_not_le hpp)
      have hint2 : nextBalance mr mp b * mr < mp :=
        lt_of_le_of_lt (mul_le_mul_of_nonneg_right (le_of_lt hnblt) hmr) hint
      rcases ih (nextBalance mr mp b) (ti + interestOf mr b) (m + 1) hnbpos hint2 with
        ⟨hmsg, hne, hfin⟩
      refine ⟨by simpa using hmsg, by simp, ?_⟩
      rcases hrest : (scheduleGo mr mp n (nextBalance mr mp b)
          (ti + interestOf mr b) (m + 1)).schedule with _ | ⟨r0, rtail⟩
      · have : n = 0 := hne hrest
        subst this
        right
        simp [hrest]
      · rw [LoanResult_schedule_mk, finalBalance_cons, mkEntry_balance]
        rcases hfin with hzero | hlen
        · left; rw [← hrest]; exact hzero
        · right
          rw [hrest] at hlen
          simp only [List.length_cons] at hlen ⊢
          omega

/-- When the payment stays ahead of the accruing interest and fuel remains,
at least one row is emitted. -/
lemma go_ne_nil (mr mp : ℚ) (fuel : ℕ) (b ti : ℚ) (m : ℕ)
    (hb : 0 < b) (hint : b * mr < mp) :
    (scheduleGo mr mp (fuel + 1) b ti m).schedule ≠ [] := by
  have hpp : ¬ principalOf mr mp b ≤ 0 := not_le.mpr (principalOf_pos mr mp b hb hint)
  by_cases hb2 : nextBalance mr mp b ≤ 0
  · rw [scheduleGo_last _ _ _ _ _ _ hb hpp hb2]; simp
  · rw [scheduleGo_cons _ _ _ _ _ _ hb hpp hb2]; simp

/-- The Interest column sum is nonnegative for a nonnegative rate. -/
lemma go_interest_nonneg (mr mp : ℚ) (hmr : 0 ≤ mr) :
    ∀ fuel b ti m, 0 ≤ b → 0 ≤ interestSum (scheduleGo mr mp fuel b ti m).schedule := by
  intro fuel
  induction fuel with
  | zero => intro b ti m _; simp [scheduleGo_zero]
  | succ n ih =>
    intro b ti m hb0
    by_cases hb : 0 < b
    · have hip : 0 ≤ interestOf mr b := mul_nonneg hb0 hmr
      by_cases hpp : principalOf mr mp b ≤ 0
      · simp [scheduleGo_stall _ _ _ _ _ _ hb hpp]
      · by_cases hb2 : nextBalance mr mp b ≤ 0
        · rw [scheduleGo_last _ _ _ _ _ _ hb hpp hb2]
          simpa using hip
        · rw [scheduleGo_cons _ _ _ _ _ _ hb hpp hb2]
          have := ih (nextBalance mr mp b) (ti + interestOf mr b) (m + 1)
            (nextBalance_nonneg mr mp b)
          simp only [LoanResult_schedule_mk, interestSum_cons, mkEntry_interest]
          linarith
    · simp [scheduleGo_done _ _ _ _ _ _ hb]

/-- Two runs of the loop with the same rate, payment and fuel: the run from
the smaller starting balance emits no more rows and no more total interest,
provided the payment covers the interest on the larger balance. -/
lemma go_mono (mr mp : ℚ) (hmr : 0 ≤ mr) :
    ∀ fuel b2 b1 ti2 ti1 m2 m1, 0 ≤ b2 → b2 ≤ b1 → b1 * mr < mp →
      (scheduleGo mr mp fuel b2 ti2 m2).schedule.length ≤
        (scheduleGo mr mp fuel b1 ti1 m1).schedule.length ∧
      interestSum (scheduleGo mr mp fuel b2 ti2 m2).schedule ≤
        interestSum (scheduleGo mr mp fuel b1 ti1 m1).schedule := by
  intro fuel
  induction fuel with
  | zero => intro b2 b1 ti2 ti1 m2 m1 _ _ _; simp [scheduleGo_zero]
  | succ n ih =>
    intro b2 b1 ti2 ti1 m2 m1 h20 h21 hint1
    by_cases hb2p : 0 < b2
    · have hb1p : 0 < b1 := lt_of_lt_of_le hb2p h21
      have hint2 : b2 * mr < mp :=
        lt_of_le_of_lt (mul_le_mul_of_nonneg_right h21 hmr) hint1
      have hpp2 : ¬ principalOf mr mp b2 ≤ 0 :=
        not_le.mpr (principalOf_pos mr mp b2 hb2p hint2)
      have hpp1 : ¬ principalOf mr mp b1 ≤ 0 :=
        not_le.mpr (principalOf_pos mr mp b1 hb1p hint1)
      have hnb : nextBalance mr mp b2 ≤ nextBalance mr mp b1 :=
        nextBalance_mono mr mp b2 b1 hmr h21
      have hipmono : interestOf mr b2 ≤ interestOf mr b1 :=
        mul_le_mul_of_nonneg_right h21 hmr
      by_cases h2z : nextBalance mr mp b2 ≤ 0
      · rw [scheduleGo_last _ _ _ _ _ _ hb2p hpp2 h2z]
        by_cases h1z : nextBalance mr mp b1 ≤ 0
        · rw [scheduleGo_last _ _ _ _ _ _ hb1p hpp1 h1z]
          constructor
          · simp
          · simpa using hipmono
        · rw [scheduleGo_cons _ _ _ _ _ _ hb1p hpp1 h1z]
          constructor
          · simp
          · have hrest : 0 ≤ interestSum (scheduleGo mr mp n (nextBalance mr mp b1)
                (ti1 + interestOf mr b1) (m1 + 1)).schedule :=
              go_interest_nonneg mr mp hmr n _ _ _ (nextBalance_nonneg mr mp b1)
            simp only [LoanResult_schedule_mk, interestSum_cons, mkEntry_interest,
              interestSum_nil]
            linarith
      · have h1z : ¬ nextBalance mr mp b1 ≤ 0 :=
          fun h => h2z (le_trans hnb h)
        rw [scheduleGo_cons _ _ _ _ _ _ hb2p hpp2 h2z,
          scheduleGo_cons _ _ _ _ _ _ hb1p hpp1 h1z]
        have hnb1lt : nextBalance mr mp b1 < b1 :=
          nextBalance_lt mr mp b1 (lt_of_not_le hpp1)
        have hint1n : nextBalance mr mp b1 * mr < mp :=
          lt_of_le_of_lt (mul_le_mul_of_nonneg_right (le_of_lt hnb1lt) hmr) hint1
        rcases ih (nextBalance mr mp b2) (nextBalance mr mp b1)
            (ti2 + interestOf mr b2) (ti1 + interestOf mr b1) (m2 + 1) (m1 + 1)
            (nextBalance_nonneg mr mp b2) hnb hint1n with ⟨hlen, hsum⟩
        constructor
        · simpa using Nat.succ_le_succ hlen
        · simp only [LoanResult_schedule_mk, interestSum_cons, mkEntry_interest]
          linarith
    · rw [scheduleGo_done _ _ _ _ _ _ hb2p]
      constructor
      · simp
      · have : 0 ≤ b1 := le_trans h20 h21
        simpa using go_interest_nonneg mr mp hmr (n + 1) b1 ti1 m1 this

end LoopInduction

section Claims

/-- C1: for every call of calculate_loan_schedule, the engine works with
monthlyRate = annualRatePercent / 100 / 12, and every emitted month records
interest equal to the month's starting balance times the monthly rate, a
principal portion equal to min(monthlyPayment - interest, starting balance),
and a balance decreased by exactly the principal portion, each month
continuing from the previous month's balance. -/
theorem C1_month_bookkeeping (principal annual_rate monthly_payment : ℚ)
    (max_months : ℕ) :
    chainFrom (annual_rate / 100 / 12) monthly_payment principal
      (calculate_loan_schedule principal annual_rate monthly_payment max_months).schedule := by
  unfold calculate_loan_schedule
  exact go_chain _ _ _ _ _ _

/-- C2: with a positive balance and fuel remaining, the loop halts with no
entry for the month (nor any later one) exactly when the computed principal
portion min(monthlyPayment - interest, balance) is nonpositive, reporting
the month's interest as the minimum required payment; when the principal
portion is positive an entry for the month is emitted instead. In
particular calculate_loan_schedule(100000, 12.0, 500, 360) halts on month 1
with an empty schedule and a reported minimum of 1000. -/
theorem C2_insufficient_payment_halt
    (monthly_rate monthly_payment balance total_interest : ℚ) (fuel month : ℕ)
    (hb : 0 < balance) :
    (min (monthly_payment - balance * monthly_rate) balance ≤ 0 →
      scheduleGo monthly_rate monthly_payment (fuel + 1) balance total_interest month =
        ⟨[], some (balance * monthly_rate)⟩) ∧
    (0 < min (monthly_payment - balance * monthly_rate) balance →
      ∃ rest,
        (scheduleGo monthly_rate monthly_payment (fuel + 1) balance total_interest
            month).schedule =
          mkEntry monthly_rate monthly_payment balance total_interest (month + 1) :: rest) ∧
    calculate_loan_schedule 100000 12 500 360 = ⟨[], some 1000⟩ := by
  refine ⟨fun h => ?_, fun h => ?_, ?_⟩
  · exact scheduleGo_stall _ _ _ _ _ _ hb h
  · have hpp : ¬ principalOf monthly_rate monthly_payment balance ≤ 0 := not_le.mpr h
    by_cases hb2 : nextBalance monthly_rate monthly_payment balance ≤ 0
    · exact ⟨[], by rw [scheduleGo_last _ _ _ _ _ _ hb hpp hb2]⟩
    · exact ⟨_, by rw [scheduleGo_cons _ _ _ _ _ _ hb hpp hb2]⟩
  · rw [calculate_loan_schedule, show (360:ℕ) = 359 + 1 from rfl,
      scheduleGo_stall _ _ _ _ _ _ (by norm_num)
        (by norm_num [principalOf, interestOf, min_def])]
    norm_num [interestOf]

/-- C2 witness: the concrete insufficient-payment run. -/
theorem C2_insufficient_payment_halt_witness :
    calculate_loan_schedule 100000 12 500 360 = ⟨[], some 1000⟩ :=
  (C2_insufficient_payment_halt 1 1 1 1 1 1 (by norm_num)).2.2

/-- C4: in every returned schedule each non-final entry carries the full
monthly payment, split exactly as principal plus interest; a final entry
that retires the balance has payment equal to principal plus interest; and
the principal portions sum to the original principal minus the final
balance. -/
theorem C4_conservation (principal annual_rate monthly_payment : ℚ)
    (max_months : ℕ) :
    (∀ e ∈ ((calculate_loan_schedule principal annual_rate monthly_payment
        max_months).schedule).dropLast,
      e.payment = monthly_payment ∧ e.principal + e.interest = monthly_payment) ∧
    (∀ e, (calculate_loan_schedule principal annual_rate monthly_payment
        max_months).schedule.getLast? = some e → e.balance ≤ 0 →
      e.payment = e.principal + e.interest) ∧
    principalSum (calculate_loan_schedule principal annual_rate monthly_payment
        max_months).schedule =
      principal - finalBalance principal
        (calculate_loan_schedule principal annual_rate monthly_payment
          max_months).schedule := by
  unfold calculate_loan_schedule
  refine ⟨go_nonfinal _ _ _ _ _ _, fun e hlast hbal => ?_, go_principal_sum _ _ _ _ _ _⟩
  have hmem : e ∈ (scheduleGo (annual_rate / 100 / 12) monthly_payment max_months
      principal 0 0).schedule := by
    rcases List.mem_getLast?_eq_getLast (by rw [hlast]; rfl) with ⟨hne, he⟩
    rw [he]
    exact List.getLast_mem hne
  have hpay := go_payment _ _ _ _ _ _ e hmem
  rw [hpay, if_neg (not_lt.mpr hbal)]

/-- C4 witness: the conservation identity at a concrete run. -/
theorem C4_conservation_witness :
    principalSum (calculate_loan_schedule 1000 0 1000 5).schedule =
      1000 - finalBalance 1000 (calculate_loan_schedule 1000 0 1000 5).schedule :=
  (C4_conservation 1000 0 1000 5).2.2

/-- C5: with a nonnegative annual rate, every returned schedule has
nonnegative balances, a non-increasing balance column, and a non-decreasing
cumulative-interest column. -/
theorem C5_monotone_columns (principal annual_rate monthly_payment : ℚ)
    (max_months : ℕ) (hr : 0 ≤ annual_rate) :
    (∀ e ∈ (calculate_loan_schedule principal annual_rate monthly_payment
        max_months).schedule, 0 ≤ e.balance) ∧
    ((calculate_loan_schedule principal annual_rate monthly_payment
        max_months).schedule).Pairwise (fun a c => c.balance ≤ a.balance) ∧
    ((calculate_loan_schedule principal annual_rate monthly_payment
        max_months).schedule).Pairwise
      (fun a c => a.totalInterest ≤ c.totalInterest) := by
  have hmr : 0 ≤ annual_rate / 100 / 12 :=
    div_nonneg (div_nonneg hr (by norm_num)) (by norm_num)
  unfold calculate_loan_schedule
  exact ⟨fun e he => (go_balance_bounds _ _ _ _ _ _ e he).1,
    go_balance_pairwise _ _ _ _ _ _, go_ti_pairwise _ _ hmr _ _ _ _⟩

/-- C5 witness: nonnegativity of the final balance at a concrete run. -/
theorem C5_monotone_columns_witness :
    0 ≤ finalBalance 1000 (calculate_loan_schedule 1000 0 1000 5).schedule := by
  have hs : calculate_loan_schedule 1000 0 1000 5 =
      ⟨[mkEntry (0 / 100 / 12) 1000 1000 0 (0 + 1)], none⟩ := by
    rw [calculate_loan_schedule, show (5:ℕ) = 4 + 1 from rfl,
      scheduleGo_last _ _ _ _ _ _ (by norm_num)
        (by norm_num [principalOf, interestOf, min_def])
        (by norm_num [nextBalance, principalOf, interestOf, min_def])]
  have hmem : mkEntry (0 / 100 / 12) 1000 1000 0 (0 + 1) ∈
      (calculate_loan_schedule 1000 0 1000 5).schedule := by
    rw [hs]; simp
  have h := (C5_monotone_columns 1000 0 1000 5 le_rfl).1 _ hmem
  rw [hs]
  simpa [finalBalance] using h

/-- C3 counterexample: calculate_loan_schedule(1000000, 8.5, 10000, 2)
satisfies all the claim's hypotheses (positive principal, nonnegative rate,
payment above the minimum required interest), yet the horizon-exhausted
schedule ends with a balance near 994146, not one within tolerance of
zero. -/
theorem C3_counterexample :
    (0:ℚ) < 1000000 ∧ (0:ℚ) ≤ 17 / 2 ∧
    (1000000:ℚ) * ((17 / 2) / 100 / 12) < 10000 ∧
    (calculate_loan_schedule 1000000 (17 / 2) 10000 2).schedule.length = 2 ∧
    (994000:ℚ) <
      finalBalance 1000000 (calculate_loan_schedule 1000000 (17 / 2) 10000 2).schedule := by
  have h0 : ¬ principalOf ((17 / 2) / 100 / 12) 10000 (1000000:ℚ) ≤ 0 := by
    norm_num [principalOf, interestOf, min_def]
  have h0b : ¬ nextBalance ((17 / 2) / 100 / 12) 10000 (1000000:ℚ) ≤ 0 := by
    norm_num [nextBalance, principalOf, interestOf, min_def]
  have hnb0 : nextBalance ((17 / 2) / 100 / 12) 10000 (1000000:ℚ) = 2991250 / 3 := by
    norm_num [nextBalance, principalOf, interestOf, min_def]
  have h1 : ¬ principalOf ((17 / 2) / 100 / 12) 10000 ((2991250:ℚ) / 3) ≤ 0 := by
    norm_num [principalOf, interestOf, min_def]
  have h1b : ¬ nextBalance ((17 / 2) / 100 / 12) 10000 ((2991250:ℚ) / 3) ≤ 0 := by
    norm_num [nextBalance, principalOf, interestOf, min_def]
  have hs : (calculate_loan_schedule 1000000 (17 / 2) 10000 2).schedule =
      [mkEntry ((17 / 2) / 100 / 12) 10000 1000000 0 (0 + 1),
       mkEntry ((17 / 2) / 100 / 12) 10000 (2991250 / 3)
         (0 + interestOf ((17 / 2) / 100 / 12) 1000000) (0 + 1 + 1)] := by
    rw [calculate_loan_schedule, show (2:ℕ) = 1 + 1 from rfl,
      scheduleGo_cons _ _ _ _ _ _ (by norm_num) h0 h0b, hnb0,
      show (1:ℕ) = 0 + 1 from rfl,
      scheduleGo_cons _ _ _ _ _ _ (by norm_num [hnb0]) h1 h1b,
      scheduleGo_zero]
  refine ⟨by norm_num, by norm_num, by norm_num, ?_, ?_⟩
  · rw [hs]; rfl
  · rw [hs, finalBalance_cons, finalBalance_cons, finalBalance_nil, mkEntry_balance]
    norm_num [nextBalance, principalOf, interestOf, min_def]

/-- C3 amended: under the claim's hypotheses the loop terminates without an
insufficient-payment report and with at most horizonMonths rows, and the
final balance is exactly 0 unless the schedule was truncated at exactly
horizonMonths rows (horizon exhaustion, in which case any balance may
remain). -/
theorem C3_termination_amended (principal annual_rate monthly_payment : ℚ)
    (max_months : ℕ) (hp : 0 < principal) (hr : 0 ≤ annual_rate)
    (hpay : principal * (annual_rate / 100 / 12) < monthly_payment) :
    (calculate_loan_schedule principal annual_rate monthly_payment
        max_months).schedule.length ≤ max_months ∧
    (calculate_loan_schedule principal annual_rate monthly_payment
        max_months).insufficientMsg = none ∧
    (finalBalance principal (calculate_loan_schedule principal annual_rate
        monthly_payment max_months).schedule = 0 ∨
      (calculate_loan_schedule principal annual_rate monthly_payment
        max_months).schedule.length = max_months) := by
  have hmr : 0 ≤ annual_rate / 100 / 12 :=
    div_nonneg (div_nonneg hr (by norm_num)) (by norm_num)
  unfold calculate_loan_schedule
  rcases go_success _ _ hmr max_months principal 0 0 hp hpay with ⟨hmsg, _, hfin⟩
  exact ⟨go_len_le _ _ _ _ _ _, hmsg, hfin⟩

/-- C3 witness: a run under the amended hypotheses, with no
insufficient-payment report. -/
theorem C3_termination_amended_witness :
    (calculate_loan_schedule 1000 0 1000 5).insufficientMsg = none :=
  (C3_termination_amended 1000 0 1000 5 (by norm_num) le_rfl (by norm_num)).2.1

/-- C6 counterexample: with prepayAmount strictly between 0 and the
principal but a payment below the first-month interest on the original
principal, the baseline schedule is empty and
calculate_prepayment_impact(1000000, 12, 5100, 500000, 2) aborts with a
KeyError on the empty DataFrame column (none) instead of producing the
claimed comparison. -/
theorem C6_counterexample :
    (0:ℚ) < 500000 ∧ (500000:ℚ) < 1000000 ∧
    calculate_prepayment_impact 1000000 12 5100 500000 2 = none := by
  have horig : (calculate_loan_schedule 1000000 12 5100 2).schedule = [] := by
    rw [calculate_loan_schedule, show (2:ℕ) = 1 + 1 from rfl,
      scheduleGo_stall _ _ _ _ _ _ (by norm_num)
        (by norm_num [principalOf, interestOf, min_def])]
  refine ⟨by norm_num, by norm_num, ?_⟩
  rw [calculate_prepayment_impact, horig]
  simp [columnSum]

/-- C6 amended: when additionally the rate is nonnegative, the payment
exceeds the first-month interest on the original principal, and the horizon
is positive, calculate_prepayment_impact returns a comparison, and the
alternative schedule (reduced principal) is no longer and accrues no more
total interest than the baseline. -/
theorem C6_prepayment_amended (principal annual_rate monthly_payment
    prepay_amount : ℚ) (max_months : ℕ) (hpre : 0 < prepay_amount)
    (hlt : prepay_amount < principal) (hr : 0 ≤ annual_rate)
    (hpay : principal * (annual_rate / 100 / 12) < monthly_payment)
    (hm : 0 < max_months) :
    (calculate_prepayment_impact principal annual_rate monthly_payment
        prepay_amount max_months).isSome = true ∧
    (calculate_loan_schedule (principal - prepay_amount) annual_rate
        monthly_payment max_months).schedule.length ≤
      (calculate_loan_schedule principal annual_rate monthly_payment
        max_months).schedule.length ∧
    interestSum (calculate_loan_schedule (principal - prepay_amount) annual_rate
        monthly_payment max_months).schedule ≤
      interestSum (calculate_loan_schedule principal annual_rate monthly_payment
        max_months).schedule := by
  have hmr : 0 ≤ annual_rate / 100 / 12 :=
    div_nonneg (div_nonneg hr (by norm_num)) (by norm_num)
  have hpay2 : (principal - prepay_amount) * (annual_rate / 100 / 12) <
      monthly_payment :=
    lt_of_le_of_lt
      (mul_le_mul_of_nonneg_right (by linarith) hmr) hpay
  have hmono := go_mono (annual_rate / 100 / 12) monthly_payment hmr max_months
    (principal - prepay_amount) principal 0 0 0 0 (by linarith) (by linarith) hpay
  refine ⟨?_, hmono.1, hmono.2⟩
  rcases Nat.exists_eq_succ_of_ne_zero (Nat.pos_iff_ne_zero.mp hm) with ⟨k, rfl⟩
  have h1 : (calculate_loan_schedule principal annual_rate monthly_payment
      (k + 1)).schedule ≠ [] := by
    unfold calculate_loan_schedule
    exact go_ne_nil _ _ k principal 0 0 (by linarith) hpay
  have h2 : (calculate_loan_schedule (principal - prepay_amount) annual_rate
      monthly_payment (k + 1)).schedule ≠ [] := by
    unfold calculate_loan_schedule
    exact go_ne_nil _ _ k (principal - prepay_amount) 0 0 (by linarith) hpay2
  rcases columnSum_isSome (fun e => e.interest) _ h1 with ⟨q1, hq1⟩
  rcases columnSum_isSome (fun e => e.interest) _ h2 with ⟨q2, hq2⟩
  rw [calculate_prepayment_impact, hq1, hq2]
  rfl

/-- C6 witness: a concrete comparison under the amended hypotheses. -/
theorem C6_prepayment_amended_witness :
    (calculate_prepayment_impact 1000 12 600 500 12).isSome = true :=
  (C6_prepayment_amended 1000 12 600 500 12 (by norm_num) (by norm_num) (by norm_num)
    (by norm_num) (by norm_num)).1

/-- C7 counterexample: at prepayment_amount = 0 the script still computes an
ROI value (src/main.py line 334 has no guard); it does not report a
not-applicable condition. -/
theorem C7_counterexample : roi_reported 5 0 ≠ none := by
  simp [roi_reported]

/-- C7 amended: the break-even division is guarded — it is performed exactly
when monthlyInterestDiff is positive and otherwise a no-savings condition is
reported — but the ROI division is not guarded: an ROI value is computed for
every prepayment amount, including zero. -/
theorem C7_guards_amended (rewriting_fee diff interest_savings
    prepayment_amount : ℚ) :
    (0 < diff → breakeven_months rewriting_fee diff =
      some (pythonRound (rewriting_fee / diff))) ∧
    (diff ≤ 0 → breakeven_months rewriting_fee diff = none) ∧
    roi_reported interest_savings prepayment_amount =
      some (roiValue interest_savings prepayment_amount) := by
  refine ⟨fun h => ?_, fun h => ?_, rfl⟩
  · rw [breakeven_months, if_pos h]
  · rw [breakeven_months, if_neg (not_lt.mpr h)]

/-- C7 witness: the guarded break-even at a concrete positive
differential. -/
theorem C7_guards_amended_witness :
    breakeven_months 3000 100 = some (pythonRound (3000 / 100)) :=
  (C7_guards_amended 3000 100 0 0).1 (by norm_num)

/-- C8: when prepayAmount is at least the principal, the alternative
schedule is empty, so the Interest column access on the empty DataFrame
inside calculate_prepayment_impact raises KeyError and no comparison is
returned (the call aborts, modelled as none), for every rate, payment and
horizon. -/
theorem C8_full_prepayment_aborts (principal annual_rate monthly_payment
    prepay_amount : ℚ) (max_months : ℕ) (h : principal ≤ prepay_amount) :
    calculate_prepayment_impact principal annual_rate monthly_payment
      prepay_amount max_months = none := by
  have hnew : (calculate_loan_schedule (principal - prepay_amount) annual_rate
      monthly_payment max_months).schedule = [] := by
    unfold calculate_loan_schedule
    cases max_months with
    | zero => rw [scheduleGo_zero]
    | succ n =>
      rw [scheduleGo_done _ _ _ _ _ _ (not_lt.mpr (by linarith))]
  rw [calculate_prepayment_impact, hnew]
  cases hcs : columnSum (fun e => e.interest)
      (calculate_loan_schedule principal annual_rate monthly_payment
        max_months).schedule with
  | none => simp [columnSum]
  | some q => simp [columnSum]

/-- C8 witness: prepaying the whole principal makes the call abort. -/
theorem C8_full_prepayment_aborts_witness :
    calculate_prepayment_impact 1000000 (17 / 2) 10000 1000000 360 = none :=
  C8_full_prepayment_aborts 1000000 (17 / 2) 10000 1000000 360 le_rfl

/-- C9: the recommendation block is a pure decision rule with outcomes
selected in priority order — prepayment when its savings are positive and
beat the rate-change net savings, else the rate change when its net savings
are positive and beat the prepayment savings, else a smaller prepayment
when the amount exceeds 25 percent of the principal, else no action. -/
theorem C9_recommendation_rule (prepay_savings net_savings prepayment_amount
    current_principal : ℚ) :
    ((net_savings < prepay_savings ∧ 0 < prepay_savings) →
      recommendation prepay_savings net_savings prepayment_amount current_principal =
        Recommendation.makePrepayment) ∧
    (¬ (net_savings < prepay_savings ∧ 0 < prepay_savings) →
      (0 < net_savings ∧ prepay_savings < net_savings) →
      recommendation prepay_savings net_savings prepayment_amount current_principal =
        Recommendation.lowerRate) ∧
    (¬ (net_savings < prepay_savings ∧ 0 < prepay_savings) →
      ¬ (0 < net_savings ∧ prepay_savings < net_savings) →
      current_principal * (25 / 100) < prepayment_amount →
      recommendation prepay_savings net_savings prepayment_amount current_principal =
        Recommendation.smallerPrepayment) ∧
    (¬ (net_savings < prepay_savings ∧ 0 < prepay_savings) →
      ¬ (0 < net_savings ∧ prepay_savings < net_savings) →
      ¬ current_principal * (25 / 100) < prepayment_amount →
      recommendation prepay_savings net_savings prepayment_amount current_principal =
        Recommendation.noAction) := by
  refine ⟨fun ha => ?_, fun hna hb => ?_, fun hna hnb hc => ?_, fun hna hnb hnc => ?_⟩
  · rw [recommendation, if_pos ha]
  · rw [recommendation, if_neg hna, if_pos hb]
  · rw [recommendation, if_neg hna, if_neg hnb, if_pos hc]
  · rw [recommendation, if_neg hna, if_neg hnb, if_neg hnc]

/-- C9 witness: a concrete prepayment recommendation. -/
theorem C9_recommendation_rule_witness :
    recommendation 10 5 0 100 = Recommendation.makePrepayment :=
  (C9_recommendation_rule 10 5 0 100).1 (by norm_num)

/-- C10: noninterference of the unused horizon input — two runs of the
whole pipeline that differ only in the remaining_months sidebar value
produce identical schedules, savings metrics, break-even, ROI and
recommendation, since every schedule is computed with the hard-coded
horizon 360. -/
theorem C10_remaining_months_noninterference (current_principal current_rate
    monthly_payment : ℚ) (m1 m2 : ℕ) (new_rate rewriting_fee prepayment_amount
    prepayment_fee_percent : ℚ) :
    appCompute ⟨current_principal, current_rate, monthly_payment, m1, new_rate,
        rewriting_fee, prepayment_amount, prepayment_fee_percent⟩ =
      appCompute ⟨current_principal, current_rate, monthly_payment, m2, new_rate,
        rewriting_fee, prepayment_amount, prepayment_fee_percent⟩ := rfl

end Claims
